import Mathlib

/-!
Verification development for the fountain screenplay parser
(screenplain/parsers/fountain.py). The Python source is embedded shallowly:
each regex and classifier method is translated into an executable Lean
function over `List Char` / `String`, and the behavioral properties of the
parser are proved as theorems about these functions.
-/

namespace Fountain

/-- Whitespace characters matched by the Python 2 regex class and by
`str.strip` with no arguments, in the C locale: space, tab, newline,
carriage return, vertical tab, form feed. -/
def pyWs (c : Char) : Bool :=
  c == ' ' || c == '\t' || c == '\n' || c == '\r' || c == '\x0b' || c == '\x0c'

/-- Right-strip of Python whitespace on a character list. -/
def rstripL (l : List Char) : List Char :=
  (l.reverse.dropWhile pyWs).reverse

/-- Python `line.lstrip()` for a byte string in the C locale. -/
def pyLStrip (s : String) : String :=
  ⟨s.data.dropWhile pyWs⟩

/-- Python `line.rstrip()` for a byte string in the C locale. -/
def pyRStrip (s : String) : String :=
  ⟨rstripL s.data⟩

/-- Python `line.strip()` for a byte string in the C locale. -/
def pyStrip (s : String) : String :=
  ⟨rstripL (s.data.dropWhile pyWs)⟩

/-- Python `str.upper()` for a byte string in the C locale: ASCII letters only,
which coincides with `Char.toUpper`. -/
def pyUpper (s : String) : String :=
  ⟨s.data.map Char.toUpper⟩

/-- A character is cased (ASCII model, matching Python 2 byte strings in the
C locale). -/
def isCasedChar (c : Char) : Bool :=
  c.isLower || c.isUpper

/-- Python `str.isupper()`: at least one cased character and no lowercase
cased character. -/
def pyIsUpper (s : String) : Bool :=
  s.data.any isCasedChar && !(s.data.any Char.isLower)

/-- Python `s.endswith(t)`. -/
def endsWithStr (s t : String) : Bool :=
  t.data.isSuffixOf s.data

/-- Tab expansion of `str.expandtabs(4)`: each tab advances to the next
multiple-of-4 column; newline and carriage return reset the column. -/
def expandTabs : List Char → Nat → List Char
  | [], _ => []
  | c :: rest, col =>
    if c = '\t' then
      let n := 4 - col % 4
      List.replicate n ' ' ++ expandTabs rest (col + n)
    else if c = '\n' || c = '\r' then c :: expandTabs rest 0
    else c :: expandTabs rest (col + 1)

/-- `_preprocess_line`: expand tabs to width 4, strip trailing end-of-line
markers (`rstrip` of carriage return and newline characters). -/
def preprocessLine (raw : String) : String :=
  ⟨((expandTabs raw.data 0).reverse.dropWhile (fun c => c == '\r' || c == '\n')).reverse⟩

/-- `_is_blank`: a line is blank exactly when it is the empty string. -/
def _is_blank (line : String) : Bool :=
  line == ""

/-- RichText produced by the external emphasis parser.
Modelled from the spec: the emphasis parser is an external capability,
opaque to the classification engine, so rich text is represented by the
raw string it was built from. -/
structure RichText where
  raw : String
deriving DecidableEq, Repr

/-- Modelled from the spec: `parse_emphasis` from the external richstring
module (not under src/), treated as an opaque injection of the line. -/
def parse_emphasis (s : String) : RichText :=
  ⟨s⟩

/-- Modelled from the spec: `plain` from the external richstring module
(not under src/), used for scene numbers and synopses. -/
def plain (s : String) : RichText :=
  ⟨s⟩

/-- Data of a `Dialog` element: character name, spoken lines, and the
optional synopsis every non-dual element carries (per the spec data model;
the types module itself is not under src/). -/
structure DialogData where
  character : RichText
  spoken : List RichText
  synopsis : Option String
deriving DecidableEq, Repr

/-- Modelled from the spec: the Element variants of screenplain.types
(not under src/): Slug, Action, Section, Transition, Dialog, DualDialog.
All variants except DualDialog carry an optional synopsis. -/
inductive Element where
  | slug (text : RichText) (sceneNumber : Option RichText) (synopsis : Option String)
  | action (alines : List RichText) (centered : Bool) (synopsis : Option String)
  | sectionHeading (text : RichText) (level : Nat) (synopsis : Option String)
  | transition (text : RichText) (synopsis : Option String)
  | dialog (d : DialogData)
  | dualDialog (left right : DialogData)
deriving DecidableEq, Repr

/-- Modelled from the spec: `set_synopsis` on elements (types module not
under src/). Every variant except DualDialog stores the synopsis;
DualDialog has no such method, which `hasSetSynopsis` captures, so the
DualDialog branch below is never reached by the guarded caller. -/
def Element.set_synopsis : Element → String → Element
  | .slug t n _, s => .slug t n (some s)
  | .action l c _, s => .action l c (some s)
  | .sectionHeading t lv _, s => .sectionHeading t lv (some s)
  | .transition t _, s => .transition t (some s)
  | .dialog d, s => .dialog { d with synopsis := some s }
  | .dualDialog l r, _ => .dualDialog l r

/-- Modelled from the spec: the Python `hasattr` probe for the
`set_synopsis` capability: true for every element variant except
DualDialog. -/
def hasSetSynopsis : Element → Bool
  | .dualDialog _ _ => false
  | _ => true

/-- An input paragraph: a maximal run of non-blank preprocessed lines. -/
structure InputParagraph where
  lines : List String
deriving DecidableEq, Repr

/-! ### Regex translations -/

/-- `slug_re`: optional leading period with following whitespace skipped,
then the content from the first non-whitespace character with trailing
whitespace stripped. A line starting with whitespace does not match.
Returns (period present, text group). -/
def slugMatch (line : String) : Option (Bool × String) :=
  match line.data with
  | [] => none
  | c :: cs =>
    if pyWs c then none
    else if c = '.' then
      match cs.dropWhile pyWs with
      | [] => some (false, ⟨[c]⟩)
      | r => some (true, ⟨rstripL r⟩)
    else some (false, ⟨rstripL (c :: cs)⟩)

/-- The accepted leading patterns of the three `slug_regexes`, expanded into
the finite set of prefixes (each scene-type keyword followed by space or
period). -/
def slugKeywords : List (List Char) :=
  [['I', 'N', 'T', ' '], ['I', 'N', 'T', '.'],
   ['E', 'X', 'T', ' '], ['E', 'X', 'T', '.'],
   ['E', 'S', 'T', ' '], ['E', 'S', 'T', '.'],
   ['I', 'N', 'T', '/', 'E', 'X', 'T', ' '], ['I', 'N', 'T', '/', 'E', 'X', 'T', '.'],
   ['I', 'N', 'T', '.', '/', 'E', 'X', 'T', ' '], ['I', 'N', 'T', '.', '/', 'E', 'X', 'T', '.'],
   ['I', '/', 'E', ' '], ['I', '/', 'E', '.']]

/-- The three `slug_regexes` prefix tests. -/
def matchesSlugRegexes (t : String) : Bool :=
  slugKeywords.any (fun p => p.isPrefixOf t.data)

/-- Characters of the scene-number class in `scene_number_re`:
word characters, hyphen, dot. -/
def isSceneChar (c : Char) : Bool :=
  c.isAlphanum || c == '_' || c == '-' || c == '.'

/-- One candidate position of `scene_number_re`: does the remaining text
match whitespace, then a hash-delimited scene number, then trailing
whitespace to the end. Returns the scene-number characters. -/
def sceneSuffix (r : List Char) : Option (List Char) :=
  match r.dropWhile pyWs with
  | [] => none
  | c :: rest =>
    if c = '#' then
      let w := rest.takeWhile isSceneChar
      if w = [] then none
      else
        match rest.drop w.length with
        | [] => none
        | c2 :: tail => if c2 == '#' && tail.all pyWs then some w else none
    else none

/-- Scan for the lazy leftmost split of `scene_number_re`:
the shortest leading group such that the rest is a scene-number tag. -/
def sceneScan (acc r : List Char) : Option (List Char × List Char) :=
  match sceneSuffix r with
  | some w => some (acc.reverse, w)
  | none =>
    match r with
    | [] => none
    | c :: cs => sceneScan (c :: acc) cs

/-- `scene_number_re`: leading text plus a trailing hash-delimited scene
number, matched with a lazy leading group. -/
def sceneNumMatch (t : String) : Option (String × String) :=
  (sceneScan [] t.data).map (fun pr => (⟨pr.1⟩, ⟨pr.2⟩))

/-- `section_re`: one to six leading hash marks, greedy whitespace skip that
backtracks so that a non-hash character follows, then the rest of the line.
Returns (level, text group). -/
def sectionMatch (line : String) : Option (Nat × String) :=
  let d := line.data
  let h := (d.takeWhile (fun c => c == '#')).length
  if h = 0 || h > 6 then none
  else
    match d.drop h with
    | [] => none
    | c :: rest =>
      let rl := c :: rest
      let k := (rl.takeWhile pyWs).length
      let j0 := min k (rl.length - 1)
      if (rl.drop j0).headD ' ' == '#' then some (h, ⟨rl.drop (j0 - 1)⟩)
      else some (h, ⟨rl.drop j0⟩)

/-- The part of `centered_re` after the greater-than sign: trailing
whitespace stripped, a final less-than sign required, and the content
between the angle brackets trimmed on both sides. -/
def centeredTail (r : List Char) : Option String :=
  match r.reverse.dropWhile pyWs with
  | [] => none
  | c2 :: revContent =>
    if c2 = '<' then some ⟨rstripL (revContent.reverse.dropWhile pyWs)⟩
    else none

/-- `centered_re`: optional whitespace, a greater-than sign, lazily matched
content, then a less-than sign and trailing whitespace at the end of the
line. The group is the content between the angle brackets, trimmed. -/
def centeredMatch (line : String) : Option String :=
  match line.data.dropWhile pyWs with
  | [] => none
  | c :: r => if c = '>' then centeredTail r else none

/-- `dual_dialog_re`: a lazy non-empty group followed by optional whitespace
and a terminal caret. The group is the line up to the caret with the
whitespace run before the caret stripped (at least one character kept). -/
def dualMatch (s : String) : Option String :=
  match s.data.reverse with
  | [] => none
  | c :: urev =>
    if c = '^' then
      if urev = [] then none
      else
        match urev.dropWhile pyWs with
        | [] => some ⟨urev.reverse.take 1⟩
        | trev => some ⟨trev.reverse⟩
    else none

/-- The whitespace-skipping step of `transition_re`: greedy whitespace that
backtracks one character when the rest of the input would be empty, so the
lazy content group keeps at least one character. -/
def remAfterWs (w : List Char) : List Char :=
  let k := (w.takeWhile pyWs).length
  if k = w.length then w.drop (k - 1) else w.drop k

/-- The lazy content/`TO:` split of `transition_re`: a trailing `TO:` is
captured separately when the content before it is non-empty. -/
def toSplitTO (rem : List Char) : String × Bool :=
  if 4 ≤ rem.length ∧ ['T', 'O', ':'].isSuffixOf rem then
    (⟨rem.take (rem.length - 3)⟩, true)
  else (⟨rem⟩, false)

/-- `transition_re`: an optional leading greater-than sign (only at the very
first character), whitespace skip, lazy content, optional trailing `TO:`.
Returns (greater-than matched, text group, `TO:` group matched). When the
line is a lone greater-than sign the optional group backtracks to empty. -/
def transitionMatch (s : String) : Option (Bool × String × Bool) :=
  match s.data with
  | [] => none
  | c :: w =>
    if c = '>' then
      if w = [] then some (false, toSplitTO (remAfterWs (c :: w)))
      else some (true, toSplitTO (remAfterWs w))
    else some (false, toSplitTO (remAfterWs (c :: w)))

/-! ### Classifier methods of InputParagraph -/

/-- `InputParagraph.as_slug`. -/
def as_slug (p : InputParagraph) : Option Element :=
  match p.lines with
  | [l] =>
    match slugMatch l with
    | none => none
    | some (period, text0) =>
      let text := pyUpper text0
      if !period && !(matchesSlugRegexes text) then none
      else
        match sceneNumMatch text with
        | some pr => some (.slug (parse_emphasis pr.1) (some (plain pr.2)) none)
        | none => some (.slug (parse_emphasis text) none none)
  | _ => none

/-- `InputParagraph.as_section`. -/
def as_section (p : InputParagraph) : Option Element :=
  match p.lines with
  | [l] =>
    match sectionMatch l with
    | some hl => some (.sectionHeading (parse_emphasis hl.2) hl.1 none)
    | none => none
  | _ => none

/-- The all-lines traversal of `as_centered_action`: every line must match
the centered pattern; the matched groups are collected in order. -/
def allCentered : List String → Option (List String)
  | [] => some []
  | l :: ls =>
    match centeredMatch l with
    | none => none
    | some c =>
      match allCentered ls with
      | none => none
      | some cs => some (c :: cs)

/-- `InputParagraph.as_centered_action`. -/
def as_centered_action (p : InputParagraph) : Option Element :=
  match allCentered p.lines with
  | some cs => some (.action (cs.map parse_emphasis) true none)
  | none => none

/-- `InputParagraph._create_dialog`: character name plus the remaining
lines, each stripped, as the spoken text. -/
def mkDialog (character : String) (lines : List String) : DialogData :=
  ⟨parse_emphasis character, (lines.drop 1).map (fun l => parse_emphasis (pyStrip l)), none⟩

/-- `InputParagraph.as_dialog`: needs at least two lines, an all-upper-case
first line without the two-space escape suffix. When the previous output
element is a Dialog and the character line carries the caret marker, the
previous element is popped and combined into a DualDialog. Returns the
(possibly popped) previous list together with the new element. -/
def as_dialog (p : InputParagraph) (prevs : List Element) :
    Option (List Element × Element) :=
  match p.lines with
  | [] => none
  | [_] => none
  | c :: _ :: _ =>
    if !(pyIsUpper c) || endsWithStr c "  " then none
    else
      match prevs.getLast? with
      | some (.dialog dprev) =>
        match dualMatch c with
        | some t => some (prevs.dropLast, .dualDialog dprev (mkDialog t p.lines))
        | none => some (prevs, .dialog (mkDialog c p.lines))
      | _ => some (prevs, .dialog (mkDialog c p.lines))

/-- `InputParagraph.as_transition`. -/
def as_transition (p : InputParagraph) : Option Element :=
  match p.lines with
  | [l] =>
    match transitionMatch l with
    | none => none
    | some r =>
      if r.1 then
        some (.transition (parse_emphasis (pyUpper r.2.1 ++ (if r.2.2 then "TO:" else ""))) none)
      else if pyIsUpper r.2.1 && r.2.2 then
        some (.transition (parse_emphasis (r.2.1 ++ "TO:")) none)
      else none
  | _ => none

/-- `InputParagraph.as_action`: the catch-all; each line right-stripped. -/
def as_action (p : InputParagraph) : Element :=
  .action (p.lines.map (fun l => parse_emphasis (pyRStrip l))) false none

/-- Python `line.startswith(c)` for a single character. -/
def headIs (d : List Char) (c : Char) : Bool :=
  match d with
  | [] => false
  | x :: _ => x == c

/-- `InputParagraph.as_synopsis`: a single line starting with an equals sign
while the previous element exists and has the synopsis capability pops that
element, attaches the remainder (left-stripped) as its synopsis, and
returns it to be re-appended. -/
def as_synopsis (p : InputParagraph) (prevs : List Element) :
    Option (List Element × Element) :=
  match p.lines with
  | [l] =>
    match prevs.getLast? with
    | some pe =>
      if headIs l.data '=' && hasSetSynopsis pe then
        some (prevs.dropLast, pe.set_synopsis ⟨(l.data.drop 1).dropWhile pyWs⟩)
      else none
    | none => none
  | _ => none

/-- `InputParagraph.update_list`: the precedence chain. The first matching
rule wins; its element is appended to the (possibly popped) list. -/
def update_list (p : InputParagraph) (prevs : List Element) : List Element :=
  match as_synopsis p prevs with
  | some pr => pr.1 ++ [pr.2]
  | none =>
    match as_section p with
    | some e => prevs ++ [e]
    | none =>
      match as_slug p with
      | some e => prevs ++ [e]
      | none =>
        match as_centered_action p with
        | some e => prevs ++ [e]
        | none =>
          match as_dialog p prevs with
          | some pr => pr.1 ++ [pr.2]
          | none =>
            match as_transition p with
            | some e => prevs ++ [e]
            | none => prevs ++ [as_action p]

/-! ### Grouping and top-level parse -/

/-- The `itertools.groupby` pass of `parse_body`: maximal runs of non-blank
lines, in order; blank lines separate and are dropped. The accumulator
holds the current run reversed. -/
def groupNonBlank : List String → List String → List (List String)
  | [], acc => if acc = [] then [] else [acc.reverse]
  | l :: rest, acc =>
    if _is_blank l then
      if acc = [] then groupNonBlank rest [] else acc.reverse :: groupNonBlank rest []
    else groupNonBlank rest (l :: acc)

/-- `parse_body`: classify each input paragraph in order, threading the
growing output list. -/
def parse_body (source : List String) : List Element :=
  (groupNonBlank source []).foldl (fun ps g => update_list ⟨g⟩ ps) []

/-- `title_page_key_re`: at least one non-colon character, a colon, greedy
whitespace, then the rest of the line as value. -/
def keyMatch (s : String) : Option (String × String) :=
  let pre := s.data.takeWhile (fun c => c != ':')
  if pre.isEmpty then none
  else if pre.length = s.data.length then none
  else some (⟨pre⟩, ⟨(s.data.drop (pre.length + 1)).dropWhile pyWs⟩)

/-- `title_page_value_re`: three or more whitespace characters (greedy with
backtracking so at least one content character remains) or a single tab,
then the rest as the value group. -/
def valueMatch (line : String) : Option String :=
  let d := line.data
  let k := (d.takeWhile pyWs).length
  if 3 ≤ k ∧ 4 ≤ d.length then some ⟨d.drop (min k (d.length - 1))⟩
  else
    match d with
    | '\t' :: c :: cs => some ⟨c :: cs⟩
    | _ => none

/-- One `setdefault(key, []).append(value)` step on the insertion-ordered
association list that models the accumulated title-page data. -/
def addEntry (acc : List (String × List String)) (k v : String) :
    List (String × List String) :=
  if acc.any (fun e => e.1 == k) then
    acc.map (fun e => if e.1 == k then (e.1, e.2 ++ [v]) else e)
  else acc ++ [(k, [v])]

/-- The iteration of `parse_title_page` as a state machine over the lines:
state `none` expects a key line; state `some k` consumes continuation
values for `k`, falling back to key processing on the first non-matching
line. Exhausting the input in any state is success. -/
def ptpLoop : List String → Option String → List (String × List String) →
    Option (List (String × List String))
  | [], _, acc => some acc
  | l :: rest, none, acc =>
    match keyMatch l with
    | none => none
    | some kv =>
      if kv.2 = "" then ptpLoop rest (some kv.1) acc
      else ptpLoop rest none (addEntry acc kv.1 kv.2)
  | l :: rest, some k, acc =>
    match valueMatch l with
    | some v => ptpLoop rest (some k) (addEntry acc k v)
    | none =>
      match keyMatch l with
      | none => none
      | some kv =>
        if kv.2 = "" then ptpLoop rest (some kv.1) acc
        else ptpLoop rest none (addEntry acc kv.1 kv.2)

/-- `parse_title_page`: `none` models the Python `None` failure sentinel;
`some` carries the accumulated key/value data in insertion order. -/
def parse_title_page (lines : List String) : Option (List (String × List String)) :=
  ptpLoop lines none []

/-- The preprocessed input lines of `parse`. -/
def preLines (raw : List String) : List String :=
  raw.map preprocessLine

/-- The leading block consumed by `takewhile` in `parse`: preprocessed lines
up to the first blank. -/
def titleLines (raw : List String) : List String :=
  (preLines raw).takeWhile (fun l => l != "")

/-- The lines remaining in the source generator after `takewhile` consumed
the leading block and the first blank line. -/
def restLines (raw : List String) : List String :=
  ((preLines raw).dropWhile (fun l => l != "")).drop 1

/-- `parse`: attempt the title page over the leading block; the Python
`if title_page:` truthiness test sends both the `None` failure and an empty
dict to the fallback that re-chains the leading lines, a blank line, and
the rest. -/
def parse (raw : List String) : List Element :=
  match parse_title_page (titleLines raw) with
  | some tp =>
    if tp.isEmpty then parse_body (titleLines raw ++ [""] ++ restLines raw)
    else parse_body (restLines raw)
  | none => parse_body (titleLines raw ++ [""] ++ restLines raw)

/-! ### The Python 2 runtime dict, as far as iteration order is concerned

The source stores the title-page data in a plain Python 2 `dict`
(`result = {}` with `setdefault`). The interpreter that runs this file
(`it.next()`, `basestring` are Python 2 only) iterates a dict in hash-table
order, not insertion order. The model below reproduces CPython 2.7 exactly
for the small case it covers: the 64-bit string hash, table size 8 (dicts
with at most 5 entries are never resized), and iteration by ascending slot
index when no two keys land on the same slot. -/

/-- CPython 2.7 string hash (64-bit build, hash randomization off, which is
the default): `x = s[0] << 7`, then `x = (1000003 * x) XOR ch` over all
characters, then `x = x XOR len`, with the reserved value -1 mapped to -2;
returned as the unsigned 64-bit representation. -/
def py2StringHash (s : String) : Nat :=
  match s.data with
  | [] => 0
  | c :: _ =>
    let M : Nat := 2 ^ 64
    let x0 := (c.toNat * 128) % M
    let x1 := s.data.foldl (fun x ch => (((1000003 * x) % M) ^^^ ch.toNat) % M) x0
    let x2 := (x1 ^^^ s.data.length) % M
    if x2 = M - 1 then M - 2 else x2

/-- Hash slot in the initial 8-slot dict table: `hash & 7`. -/
def py2Slot (s : String) : Nat :=
  py2StringHash s % 8

/-- Insertion into a list sorted by ascending slot. -/
def insBySlot (x : String × Nat) : List (String × Nat) → List (String × Nat)
  | [] => [x]
  | y :: ys => if x.2 < y.2 then x :: y :: ys else y :: insBySlot x ys

/-- Sort key/slot pairs by ascending slot. -/
def sortBySlot : List (String × Nat) → List (String × Nat)
  | [] => []
  | x :: xs => insBySlot x (sortBySlot xs)

/-- Iteration order of a CPython 2.7 dict over the given keys (listed in
insertion order): ascending slot index in the 8-slot table. The model is
partial: it answers only when the dict never grows past 5 entries (no
resize) and no two keys collide on a slot (no probing), and returns `none`
outside that domain. -/
def py2DictIterKeys (keys : List String) : Option (List String) :=
  let slotted := keys.map (fun k => (k, py2Slot k))
  if keys.Nodup ∧ (slotted.map Prod.snd).Nodup ∧ keys.length ≤ 5 then
    some ((sortBySlot slotted).map Prod.fst)
  else none

/-- A canonical single-line `key: value` title-page line. -/
def mkKvLine (kv : String × String) : String :=
  kv.1 ++ ": " ++ kv.2

/-! ### Helper lemmas about list primitives -/

lemma dropWhile_app (p : Char → Bool) (l₁ l₂ : List Char) :
    (l₁ ++ l₂).dropWhile p =
      if l₁.dropWhile p = [] then l₂.dropWhile p else l₁.dropWhile p ++ l₂ := by
  induction l₁ with
  | nil => simp
  | cons a t ih =>
    by_cases h : p a
    · simp only [List.cons_append, List.dropWhile_cons, h, if_true, ih]
    · simp [List.dropWhile_cons, h]

lemma rstripL_cons (c : Char) (l : List Char) (h : pyWs c = false) :
    rstripL (c :: l) = c :: rstripL l := by
  unfold rstripL
  rw [show (c :: l).reverse = l.reverse ++ [c] from by simp, dropWhile_app]
  by_cases hl : l.reverse.dropWhile pyWs = []
  · simp [hl, List.dropWhile, h]
  · simp [hl]

lemma dropWhile_head_false {α : Type} (p : α → Bool) (l : List α) (a : α) (t : List α)
    (h : l.dropWhile p = a :: t) : p a = false := by
  induction l with
  | nil => simp at h
  | cons b l ih =>
    rw [List.dropWhile_cons] at h
    by_cases hb : p b
    · rw [if_pos hb] at h
      exact ih h
    · rw [if_neg hb] at h
      injection h with h1 _
      subst h1
      simpa using hb

lemma dropWhile_eq_drop_len (p : Char → Bool) (l : List Char) :
    l.dropWhile p = l.drop (l.takeWhile p).length := by
  induction l with
  | nil => rfl
  | cons a t ih =>
    by_cases h : p a <;>
      simp [List.dropWhile_cons, List.takeWhile_cons, h, ih]

lemma takeWhile_length_ne (p : Char → Bool) (l : List Char)
    (h : l.dropWhile p ≠ []) : (l.takeWhile p).length ≠ l.length := by
  intro hlen
  apply h
  have h3 : (l.takeWhile p).length + (l.dropWhile p).length = l.length := by
    rw [← List.length_append, List.takeWhile_append_dropWhile]
  have h4 : (l.dropWhile p).length = 0 := by omega
  exact List.length_eq_zero.mp h4

lemma remAfterWs_eq (w : List Char) (h : w.dropWhile pyWs ≠ []) :
    remAfterWs w = w.dropWhile pyWs := by
  unfold remAfterWs
  rw [if_neg (takeWhile_length_ne pyWs w h)]
  exact (dropWhile_eq_drop_len pyWs w).symm

/-! ### Helper lemmas about the classifier rules -/

lemma as_synopsis_two (c l2 : String) (ls : List String) (prevs : List Element) :
    as_synopsis ⟨c :: l2 :: ls⟩ prevs = none := rfl

lemma as_section_two (c l2 : String) (ls : List String) :
    as_section ⟨c :: l2 :: ls⟩ = none := rfl

lemma as_slug_two (c l2 : String) (ls : List String) :
    as_slug ⟨c :: l2 :: ls⟩ = none := rfl

lemma as_transition_two (c l2 : String) (ls : List String) :
    as_transition ⟨c :: l2 :: ls⟩ = none := rfl

lemma as_dialog_single (l : String) (prevs : List Element) :
    as_dialog ⟨[l]⟩ prevs = none := rfl

lemma as_synopsis_head_ne (l : String) (prevs : List Element)
    (h : headIs l.data '=' = false) : as_synopsis ⟨[l]⟩ prevs = none := by
  unfold as_synopsis
  cases hg : prevs.getLast? with
  | none => rfl
  | some pe => simp [h]

lemma as_section_head_ne (l : String)
    (h : headIs l.data '#' = false) : as_section ⟨[l]⟩ = none := by
  have hs : sectionMatch l = none := by
    unfold sectionMatch
    cases hd : l.data with
    | nil => simp
    | cons c cs =>
      have hc : (c == '#') = false := by simpa [headIs, hd] using h
      simp [List.takeWhile_cons, hc]
  simp [as_section, hs]

lemma slugMatch_gt (l : String) (w : List Char) (h : l.data = '>' :: w) :
    slugMatch l = some (false, ⟨'>' :: rstripL w⟩) := by
  unfold slugMatch
  rw [h]
  show (some (false, (⟨rstripL ('>' :: w)⟩ : String)) : Option (Bool × String)) =
    some (false, (⟨'>' :: rstripL w⟩ : String))
  rw [rstripL_cons '>' w rfl]

lemma as_slug_gt (l : String) (w : List Char) (h : l.data = '>' :: w) :
    as_slug ⟨[l]⟩ = none := by
  have h2 : matchesSlugRegexes (pyUpper ⟨'>' :: rstripL w⟩) = false := rfl
  simp only [as_slug]
  rw [slugMatch_gt l w h]
  simp [h2]

lemma dualMatch_some_shape (s t : String) (h : dualMatch s = some t) :
    ∃ urev, s.data.reverse = '^' :: urev ∧ urev ≠ [] := by
  unfold dualMatch at h
  split at h
  · exact Option.noConfusion h
  next c urev heq =>
    by_cases hc : c = '^'
    · subst hc
      rw [if_pos rfl] at h
      by_cases hu : urev = []
      · rw [if_pos hu] at h
        exact Option.noConfusion h
      · rw [if_neg hu] at h
        exact ⟨urev, heq, hu⟩
    · rw [if_neg hc] at h
      exact Option.noConfusion h

lemma centeredTail_caret (xs : List Char) : centeredTail (xs ++ ['^']) = none := by
  unfold centeredTail
  rw [show (xs ++ ['^']).reverse = '^' :: xs.reverse from by simp]
  rw [List.dropWhile_cons, show pyWs '^' = false from rfl]
  simp only [Bool.false_eq_true, if_false]
  rw [if_neg (by decide : ¬('^' : Char) = '<')]

lemma centeredMatch_caret (s t : String) (h : dualMatch s = some t) :
    centeredMatch s = none := by
  obtain ⟨urev, hr, hu⟩ := dualMatch_some_shape s t h
  have hdata : s.data = urev.reverse ++ ['^'] := by
    rw [← List.reverse_reverse s.data, hr, List.reverse_cons]
  unfold centeredMatch
  rw [hdata, dropWhile_app]
  by_cases h5 : urev.reverse.dropWhile pyWs = []
  · rw [if_pos h5]; rfl
  · rw [if_neg h5]
    cases h6 : urev.reverse.dropWhile pyWs with
    | nil => exact absurd h6 h5
    | cons x xs =>
      show (if x = '>' then centeredTail (xs ++ ['^']) else none) = none
      by_cases h7 : x = '>'
      · rw [if_pos h7, centeredTail_caret]
      · rw [if_neg h7]

lemma allCentered_head_none (c : String) (ls : List String) (h : centeredMatch c = none) :
    allCentered (c :: ls) = none := by
  simp [allCentered, h]

lemma as_centered_head_none (c l2 : String) (ls : List String) (h : centeredMatch c = none) :
    as_centered_action ⟨c :: l2 :: ls⟩ = none := by
  simp [as_centered_action, allCentered_head_none _ _ h]

lemma transitionMatch_gt (l : String) (w : List Char) (h : l.data = '>' :: w) (hw : w ≠ []) :
    transitionMatch l = some (true, toSplitTO (remAfterWs w)) := by
  unfold transitionMatch
  rw [h]
  show (if ('>' : Char) = '>' then
          if w = [] then some (false, toSplitTO (remAfterWs ('>' :: w)))
          else some (true, toSplitTO (remAfterWs w))
        else some (false, toSplitTO (remAfterWs ('>' :: w)))) = _
  rw [if_pos rfl, if_neg hw]

lemma transitionMatch_not_gt (l : String) (c : Char) (w : List Char)
    (h : l.data = c :: w) (hc : c ≠ '>') :
    transitionMatch l = some (false, toSplitTO (remAfterWs (c :: w))) := by
  unfold transitionMatch
  rw [h]
  show (if c = '>' then
          if w = [] then some (false, toSplitTO (remAfterWs (c :: w)))
          else some (true, toSplitTO (remAfterWs w))
        else some (false, toSplitTO (remAfterWs (c :: w)))) = _
  rw [if_neg hc]

lemma as_transition_gt (l : String) (w : List Char) (h : l.data = '>' :: w)
    (hne : w.dropWhile pyWs ≠ []) :
    as_transition ⟨[l]⟩ =
      some (.transition (parse_emphasis (pyUpper (toSplitTO (w.dropWhile pyWs)).1 ++
        (if (toSplitTO (w.dropWhile pyWs)).2 then "TO:" else ""))) none) := by
  have hw : w ≠ [] := by
    intro hnil
    apply hne
    rw [hnil]
    rfl
  simp only [as_transition]
  rw [transitionMatch_gt l w h hw, remAfterWs_eq w hne]
  rfl

lemma as_transition_upper (l : String) (c : Char) (w : List Char)
    (h : l.data = c :: w) (hc : c ≠ '>')
    (hTO : (toSplitTO ((c :: w).dropWhile pyWs)).2 = true)
    (hup : pyIsUpper (toSplitTO ((c :: w).dropWhile pyWs)).1 = true)
    (hne : (c :: w).dropWhile pyWs ≠ []) :
    as_transition ⟨[l]⟩ =
      some (.transition (parse_emphasis ((toSplitTO ((c :: w).dropWhile pyWs)).1 ++ "TO:")) none) := by
  simp only [as_transition]
  rw [transitionMatch_not_gt l c w h hc, remAfterWs_eq _ hne]
  simp [hup, hTO]

lemma as_synopsis_inv (p : InputParagraph) (prevs : List Element)
    (pr : List Element × Element) (h : as_synopsis p prevs = some pr) :
    ∃ pe s, prevs.getLast? = some pe ∧ pr = (prevs.dropLast, pe.set_synopsis s) := by
  unfold as_synopsis at h
  repeat' split at h
  all_goals first
    | exact Option.noConfusion h
    | exact ⟨_, _, by assumption, (Option.some.inj h).symm⟩

lemma as_dialog_inv (p : InputParagraph) (prevs : List Element)
    (pr : List Element × Element) (h : as_dialog p prevs = some pr) :
    pr.1 = prevs ∨
    (∃ dp nd, prevs.getLast? = some (.dialog dp) ∧
      pr = (prevs.dropLast, .dualDialog dp nd)) := by
  unfold as_dialog at h
  repeat' split at h
  all_goals first
    | exact Option.noConfusion h
    | (left; exact congrArg Prod.fst (Option.some.inj h).symm)
    | (right; exact ⟨_, _, by assumption, (Option.some.inj h).symm⟩)

lemma updateList_shape (p : InputParagraph) (prevs : List Element) :
    (∃ e, update_list p prevs = prevs ++ [e]) ∨
    (prevs ≠ [] ∧ ∃ e, update_list p prevs = prevs.dropLast ++ [e] ∧
      ((∃ dp nd, prevs.getLast? = some (.dialog dp) ∧ e = .dualDialog dp nd) ∨
       (∃ pe s, prevs.getLast? = some pe ∧ e = pe.set_synopsis s))) := by
  unfold update_list
  cases h1 : as_synopsis p prevs with
  | some pr =>
    obtain ⟨pe, s, hg, hpr⟩ := as_synopsis_inv p prevs pr h1
    right
    constructor
    · intro hnil
      subst hnil
      simp at hg
    · refine ⟨pr.2, ?_, Or.inr ⟨pe, s, hg, by rw [hpr]⟩⟩
      show pr.1 ++ [pr.2] = prevs.dropLast ++ [pr.2]
      rw [hpr]
  | none =>
    cases h2 : as_section p with
    | some e => exact Or.inl ⟨e, rfl⟩
    | none =>
      cases h3 : as_slug p with
      | some e => exact Or.inl ⟨e, rfl⟩
      | none =>
        cases h4 : as_centered_action p with
        | some e => exact Or.inl ⟨e, rfl⟩
        | none =>
          cases h5 : as_dialog p prevs with
          | some pr =>
            rcases as_dialog_inv p prevs pr h5 with hfst | ⟨dp, nd, hg, hpr⟩
            · refine Or.inl ⟨pr.2, ?_⟩
              show pr.1 ++ [pr.2] = prevs ++ [pr.2]
              rw [hfst]
            · right
              constructor
              · intro hnil
                subst hnil
                simp at hg
              · refine ⟨pr.2, ?_, Or.inl ⟨dp, nd, hg, by rw [hpr]⟩⟩
                show pr.1 ++ [pr.2] = prevs.dropLast ++ [pr.2]
                rw [hpr]
          | none =>
            cases h6 : as_transition p with
            | some e => exact Or.inl ⟨e, rfl⟩
            | none => exact Or.inl ⟨as_action p, rfl⟩

lemma as_dialog_no_prev_dialog (c l2 : String) (ls : List String) (prevs : List Element)
    (hup : pyIsUpper c = true) (hsp : endsWithStr c "  " = false)
    (hprev : ∀ d, prevs.getLast? ≠ some (.dialog d)) :
    as_dialog ⟨c :: l2 :: ls⟩ prevs = some (prevs, .dialog (mkDialog c (c :: l2 :: ls))) := by
  unfold as_dialog
  simp only [hup, hsp, Bool.not_true, Bool.or_false, Bool.false_or, if_false]
  cases hg : prevs.getLast? with
  | none => rfl
  | some pe =>
    cases pe with
    | dialog d => exact absurd hg (hprev d)
    | slug a b c2 => rfl
    | action a b c2 => rfl
    | sectionHeading a b c2 => rfl
    | transition a b => rfl
    | dualDialog a b => rfl

/-! ### Helper lemmas about the title-page parser -/

lemma takeWhile_ne_colon (l r : List Char) (h : l.all (fun c => c != ':') = true) :
    (l ++ ':' :: r).takeWhile (fun c => c != ':') = l := by
  induction l with
  | nil => rfl
  | cons a t ih =>
    simp only [List.all_cons, Bool.and_eq_true] at h
    simp [List.takeWhile_cons, h.1, ih h.2]

lemma keyMatch_mkKvLine (k v : String) (hk : k ≠ "")
    (hc : k.data.all (fun c => c != ':') = true)
    (hv : v.data.dropWhile pyWs = v.data) :
    keyMatch (mkKvLine (k, v)) = some (k, v) := by
  have hdata : (mkKvLine (k, v)).data = k.data ++ ':' :: ' ' :: v.data := by
    show (k ++ ": " ++ v).data = _
    rw [String.data_append, String.data_append,
        show ": ".data = [':', ' '] from by decide, List.append_assoc]
    rfl
  have hkd : k.data ≠ [] := by
    intro hnil
    apply hk
    have h0 : (⟨k.data⟩ : String) = (⟨[]⟩ : String) := by rw [hnil]
    exact h0.trans (by decide)
  unfold keyMatch
  rw [hdata, takeWhile_ne_colon _ _ hc]
  have h1 : ¬(k.data.isEmpty = true) := by
    cases hkd2 : k.data with
    | nil => exact absurd hkd2 hkd
    | cons a t => simp
  rw [if_neg h1]
  have h2 : ¬(k.data.length = (k.data ++ ':' :: ' ' :: v.data).length) := by
    simp [List.length_append]
  rw [if_neg h2]
  have h3 : (k.data ++ ':' :: ' ' :: v.data).drop (k.data.length + 1) = ' ' :: v.data := by
    rw [show k.data ++ ':' :: ' ' :: v.data = (k.data ++ [':']) ++ (' ' :: v.data) from by simp]
    rw [show k.data.length + 1 = (k.data ++ [':']).length from by simp]
    exact List.drop_left _ _
  rw [h3, List.dropWhile_cons, show pyWs ' ' = true from rfl, if_pos rfl, hv]

lemma addEntry_new (acc : List (String × List String)) (k v : String)
    (h : acc.any (fun e => e.1 == k) = false) :
    addEntry acc k v = acc ++ [(k, [v])] := by
  unfold addEntry
  rw [h]
  simp

lemma ptpLoop_singles : ∀ (kvs : List (String × String)) (acc : List (String × List String)),
    (∀ kv ∈ kvs, kv.1 ≠ "" ∧ kv.1.data.all (fun c => c != ':') = true ∧
      kv.2 ≠ "" ∧ kv.2.data.dropWhile pyWs = kv.2.data) →
    (kvs.map Prod.fst).Nodup →
    (∀ kv ∈ kvs, acc.any (fun e => e.1 == kv.1) = false) →
    ptpLoop (kvs.map mkKvLine) none acc =
      some (acc ++ kvs.map (fun kv => (kv.1, [kv.2]))) := by
  intro kvs
  induction kvs with
  | nil =>
    intro acc _ _ _
    simp [ptpLoop]
  | cons kv kvs ih =>
    intro acc hc hnd hfresh
    obtain ⟨hk1, hk2, hk3, hk4⟩ := hc kv (List.mem_cons_self _ _)
    have hkey : keyMatch (mkKvLine kv) = some (kv.1, kv.2) :=
      keyMatch_mkKvLine kv.1 kv.2 hk1 hk2 hk4
    show ptpLoop (mkKvLine kv :: kvs.map mkKvLine) none acc = _
    simp only [ptpLoop, hkey]
    rw [if_neg hk3]
    rw [addEntry_new acc kv.1 kv.2 (hfresh kv (List.mem_cons_self _ _))]
    have hnd2 : (kv.1 :: kvs.map Prod.fst).Nodup := by
      rw [List.map_cons] at hnd
      exact hnd
    have hnotin : kv.1 ∉ kvs.map Prod.fst := (List.nodup_cons.mp hnd2).1
    rw [ih (acc ++ [(kv.1, [kv.2])])
      (fun kv2 h2 => hc kv2 (List.mem_cons_of_mem _ h2))
      ((List.nodup_cons.mp hnd2).2)
      (by
        intro kv2 h2
        rw [List.any_append, hfresh kv2 (List.mem_cons_of_mem _ h2)]
        have hne2 : kv.1 ≠ kv2.1 := by
          intro heq
          apply hnotin
          rw [heq]
          exact List.mem_map_of_mem _ h2
        simp [hne2])]
    simp

/-! ### Claim theorems -/

/-- C1 (counterexample): a leading block consisting of the single line
`Key:` satisfies the key pattern and title-page parsing succeeds with an
empty mapping, yet the block is NOT consumed: the Python truthiness test
`if title_page:` treats the empty dict like a failure, so `Key:` reappears
as a body Action element, contradicting the claim that the element output
comes only from the remaining lines. -/
theorem empty_title_page_fallback_cex :
    parse_title_page ["Key:"] = some [] ∧
    parse ["Key:", "", "Hello"] =
      [.action [parse_emphasis "Key:"] false none,
       .action [parse_emphasis "Hello"] false none] ∧
    parse ["Key:", "", "Hello"] ≠ parse_body ["Hello"] := by
  refine ⟨by decide, by decide, ?_⟩
  decide

/-- C1 (amended): when the leading block parses successfully as a title
page with at least one recorded entry, the block is consumed and the
element output is produced from only the remaining lines; when the
successful parse yields an empty mapping, the code routes to the fallback
and the leading lines are re-parsed as body content. -/
theorem title_page_truthiness_routing (raw : List String)
    (tp : List (String × List String))
    (h : parse_title_page (titleLines raw) = some tp) :
    (tp ≠ [] → parse raw = parse_body (restLines raw)) ∧
    (tp = [] → parse raw = parse_body (titleLines raw ++ [""] ++ restLines raw)) := by
  constructor
  · intro htp
    have hemp : tp.isEmpty = false := by
      cases tp with
      | nil => exact absurd rfl htp
      | cons a t => rfl
    simp [parse, h, hemp]
  · intro htp
    subst htp
    simp [parse, h]

/-- C1 (witness): a nonempty title page is consumed and only the rest is
parsed as body. -/
theorem title_page_truthiness_routing_witness :
    parse ["Title: X", "", "Hello"] = parse_body ["Hello"] := by
  have h := (title_page_truthiness_routing ["Title: X", "", "Hello"]
    [("Title", ["X"])] (by decide)).1 (by decide)
  exact h.trans (by decide)

/-- C2 (counterexample): the title-page block `Title: My Play`,
`Credit: Written by` parses with insertion order Title before Credit, but
the Python 2 dict holding the result iterates its keys in hash-slot order,
which here is Credit before Title: iteration does not follow order of
first appearance. -/
theorem title_page_key_order_cex :
    parse_title_page ["Title: My Play", "Credit: Written by"] =
      some [("Title", ["My Play"]), ("Credit", ["Written by"])] ∧
    py2DictIterKeys ["Title", "Credit"] = some ["Credit", "Title"] ∧
    (["Credit", "Title"] : List String) ≠ ["Title", "Credit"] := by
  refine ⟨by decide, by decide, by decide⟩

/-- C2 (amended): for each key the recorded value entries do appear in
input order (repeated keys and continuation lines append to the key's
sequence), and a block of fresh single-line `Key: value` pairs parses to
exactly those pairs in insertion order; the iteration order of the
returned Python 2 dict, however, is its hash-table order, not order of
first appearance. -/
theorem title_page_value_order :
    (∀ kvs : List (String × String),
      (∀ kv ∈ kvs, kv.1 ≠ "" ∧ kv.1.data.all (fun c => c != ':') = true ∧
        kv.2 ≠ "" ∧ kv.2.data.dropWhile pyWs = kv.2.data) →
      (kvs.map Prod.fst).Nodup →
      parse_title_page (kvs.map mkKvLine) =
        some (kvs.map (fun kv => (kv.1, [kv.2])))) ∧
    parse_title_page ["Author:", "   John", "   Jane", "Author: extra"] =
      some [("Author", ["John", "Jane", "extra"])] := by
  constructor
  · intro kvs hc hnd
    unfold parse_title_page
    rw [ptpLoop_singles kvs [] hc hnd (by intro kv _; rfl)]
    rfl
  · decide

/-- C2 (witness): two fresh keys with values round-trip in insertion
order with singleton value lists. -/
theorem title_page_value_order_witness :
    parse_title_page ["Title: My Play", "Author: Me"] =
      some [("Title", ["My Play"]), ("Author", ["Me"])] := by
  have h := title_page_value_order.1 [("Title", "My Play"), ("Author", "Me")]
    (by
      intro kv hkv
      simp only [List.mem_cons, List.not_mem_nil, or_false] at hkv
      rcases hkv with rfl | rfl
      · exact ⟨by decide, by decide, by decide, by decide⟩
      · exact ⟨by decide, by decide, by decide, by decide⟩)
    (by decide)
  have h2 : ([("Title", "My Play"), ("Author", "Me")].map mkKvLine) =
      ["Title: My Play", "Author: Me"] := by decide
  rw [h2] at h
  exact h.trans (by decide)

/-- C3: whenever title-page parsing of the leading block fails, `parse`
re-chains the leading lines, one blank line, and the remaining lines and
parses the whole thing as body; the re-chained sequence is exactly the
preprocessed input (with at most one extra trailing blank when the input
had no blank line), so no line is lost or reordered. -/
theorem title_page_failure_reparse (raw : List String)
    (h : parse_title_page (titleLines raw) = none) :
    parse raw = parse_body (titleLines raw ++ [""] ++ restLines raw) ∧
    (titleLines raw ++ [""] ++ restLines raw = preLines raw ∨
     titleLines raw ++ [""] ++ restLines raw = preLines raw ++ [""]) := by
  constructor
  · simp [parse, h]
  · unfold titleLines restLines
    cases hd : (preLines raw).dropWhile (fun l => l != "") with
    | nil =>
      right
      have hta := List.takeWhile_append_dropWhile
        (p := fun l => l != "") (l := preLines raw)
      rw [hd, List.append_nil] at hta
      rw [hta]
      simp
    | cons a t =>
      left
      have ha : (a != "") = false :=
        dropWhile_head_false (fun l => l != "") (preLines raw) a t hd
      have ha2 : a = "" := by simpa using ha
      have hta := List.takeWhile_append_dropWhile
        (p := fun l => l != "") (l := preLines raw)
      rw [hd, ha2] at hta
      conv_rhs => rw [← hta]
      simp

/-- C3 (witness): a leading block violating the key pattern routes the
entire input through body parsing. -/
theorem title_page_failure_reparse_witness :
    parse ["not a title page", "", "x"] =
      parse_body ["not a title page", "", "x"] := by
  have h := (title_page_failure_reparse ["not a title page", "", "x"] (by decide)).1
  exact h.trans (by decide)

/-- C4 (counterexample): a single-line paragraph whose content starts with
a greater-than sign only after leading whitespace is NOT classified as a
Transition: `transition_re` requires the greater-than sign at the very
first character, so the space-indented line ` > cut to:` becomes an
Action; and an upper-case line with leading whitespace ending in `TO:`
yields a Transition with the whitespace stripped, not the line verbatim. -/
theorem transition_whitespace_cex :
    as_transition ⟨[" > cut to:"]⟩ = none ∧
    update_list ⟨[" > cut to:"]⟩ [] =
      [.action [parse_emphasis " > cut to:"] false none] ∧
    update_list ⟨["  FADE TO:"]⟩ [] =
      [.transition (parse_emphasis "FADE TO:") none] := by
  refine ⟨by decide, by decide, by decide⟩

/-- C4 (amended): for a single-line paragraph on which rules 1 to 4 fail
(the dialog rule cannot apply to one line): if the line's first character
is a greater-than sign and the rest is not all whitespace, the result is a
Transition whose text is the remainder with leading whitespace dropped,
upper-cased, with a trailing `TO:` (when present and preceded by at least
one character) split off and re-suffixed; otherwise, if the line after
dropping leading whitespace splits into text plus a trailing `TO:` with
the text all upper-case, the Transition text is that whitespace-stripped
text followed by `TO:` (not the verbatim line). -/
theorem transition_rule_amended (line : String) (prevs : List Element)
    (h1 : as_synopsis ⟨[line]⟩ prevs = none) (h2 : as_section ⟨[line]⟩ = none)
    (h3 : as_slug ⟨[line]⟩ = none) (h4 : as_centered_action ⟨[line]⟩ = none) :
    (∀ w, line.data = '>' :: w → w.dropWhile pyWs ≠ [] →
      update_list ⟨[line]⟩ prevs = prevs ++
        [.transition (parse_emphasis (pyUpper (toSplitTO (w.dropWhile pyWs)).1 ++
          (if (toSplitTO (w.dropWhile pyWs)).2 then "TO:" else ""))) none]) ∧
    (∀ c w, line.data = c :: w → c ≠ '>' →
      (toSplitTO ((c :: w).dropWhile pyWs)).2 = true →
      pyIsUpper (toSplitTO ((c :: w).dropWhile pyWs)).1 = true →
      (c :: w).dropWhile pyWs ≠ [] →
      update_list ⟨[line]⟩ prevs = prevs ++
        [.transition (parse_emphasis ((toSplitTO ((c :: w).dropWhile pyWs)).1 ++ "TO:")) none]) := by
  constructor
  · intro w hw hne
    unfold update_list
    rw [h1, h2, h3, h4, as_dialog_single, as_transition_gt line w hw hne]
  · intro c w hw hc hTO hup hne
    unfold update_list
    rw [h1, h2, h3, h4, as_dialog_single,
        as_transition_upper line c w hw hc hTO hup hne]

/-- C4 (witness): a line starting with the greater-than sign at position
zero is upper-cased into a Transition, and an indented upper-case `TO:`
line becomes a Transition with the indentation stripped. -/
theorem transition_rule_amended_witness :
    update_list ⟨["> cut to:"]⟩ [] = [.transition (parse_emphasis "CUT TO:") none] ∧
    update_list ⟨["  FADE IN TO:"]⟩ [] =
      [.transition (parse_emphasis "FADE IN TO:") none] := by
  constructor
  · have h := (transition_rule_amended "> cut to:" []
      (by decide) (by decide) (by decide) (by decide)).1
      (" cut to:".data) (by decide) (by decide)
    exact h.trans (by decide)
  · have h := (transition_rule_amended "  FADE IN TO:" []
      (by decide) (by decide) (by decide) (by decide)).2
      ' ' (" FADE IN TO:".data) (by decide) (by decide) (by decide) (by decide) (by decide)
    exact h.trans (by decide)

/-- C5: every classifier invocation either appends exactly one new element
at the end of the output list, or (only when the previous list is
non-empty) replaces just the last element in place - with a DualDialog
combining the popped preceding Dialog, or with the preceding element
carrying an attached synopsis; all elements before the last are untouched
and order is preserved. -/
theorem classifier_output_mutation_shape (p : InputParagraph) (prevs : List Element) :
    (∃ e, update_list p prevs = prevs ++ [e]) ∨
    (prevs ≠ [] ∧ ∃ e, update_list p prevs = prevs.dropLast ++ [e] ∧
      ((∃ dp nd, prevs.getLast? = some (.dialog dp) ∧ e = .dualDialog dp nd) ∨
       (∃ pe s, prevs.getLast? = some pe ∧ e = pe.set_synopsis s))) :=
  updateList_shape p prevs

/-- C6: every classifier invocation produces exactly one element appended
to some prior list (the catch-all action rule never fails); the line
`INT. CUT TO:` matches both the slug rule and the transition rule, and the
precedence chain classifies it as a Slug in every context. -/
theorem precedence_chain_total_and_ordered :
    (∀ (p : InputParagraph) (prevs : List Element),
      ∃ ps e, update_list p prevs = ps ++ [e]) ∧
    (∃ e, as_transition ⟨["INT. CUT TO:"]⟩ = some e) ∧
    (∀ prevs : List Element, update_list ⟨["INT. CUT TO:"]⟩ prevs =
      prevs ++ [.slug (parse_emphasis "INT. CUT TO:") none none]) := by
  refine ⟨?_, ⟨.transition (parse_emphasis "INT. CUT TO:") none, by decide⟩, ?_⟩
  · intro p prevs
    rcases updateList_shape p prevs with ⟨e, he⟩ | ⟨_, e, he, _⟩
    · exact ⟨prevs, e, he⟩
    · exact ⟨prevs.dropLast, e, he⟩
  · intro prevs
    unfold update_list
    rw [as_synopsis_head_ne "INT. CUT TO:" prevs rfl,
        show as_section ⟨["INT. CUT TO:"]⟩ = none from by decide,
        show as_slug ⟨["INT. CUT TO:"]⟩ =
          some (.slug (parse_emphasis "INT. CUT TO:") none none) from by decide]

/-- C7: consecutive paragraphs ALICE/hi then BOB ^/hey merge into exactly
one DualDialog element with the caret marker stripped from the right
character name, both through successive classifier invocations and through
the full body parse. -/
theorem dual_dialogue_merge_example :
    update_list ⟨["BOB ^", "hey"]⟩ (update_list ⟨["ALICE", "hi"]⟩ []) =
      [.dualDialog ⟨parse_emphasis "ALICE", [parse_emphasis "hi"], none⟩
        ⟨parse_emphasis "BOB", [parse_emphasis "hey"], none⟩] ∧
    parse_body ["ALICE", "hi", "", "BOB ^", "hey"] =
      [.dualDialog ⟨parse_emphasis "ALICE", [parse_emphasis "hi"], none⟩
        ⟨parse_emphasis "BOB", [parse_emphasis "hey"], none⟩] := by
  refine ⟨by decide, by decide⟩

/-- C8: a one-line paragraph starting with the equals sign, classified
while the previous output element exists and supports synopsis attachment,
attaches the remainder (leading whitespace trimmed) as that element's
synopsis without appending a new element; in particular a Slug followed by
`=A tense scene` yields exactly one element carrying that synopsis. -/
theorem synopsis_attachment_rule :
    (∀ (cs : List Char) (prevs : List Element) (pe : Element),
      prevs.getLast? = some pe → hasSetSynopsis pe = true →
      update_list ⟨[⟨'=' :: cs⟩]⟩ prevs =
        prevs.dropLast ++ [pe.set_synopsis ⟨cs.dropWhile pyWs⟩]) ∧
    parse_body ["INT. HOUSE - DAY", "", "=A tense scene"] =
      [.slug (parse_emphasis "INT. HOUSE - DAY") none (some "A tense scene")] := by
  constructor
  · intro cs prevs pe hg hcap
    have hs : as_synopsis ⟨[⟨'=' :: cs⟩]⟩ prevs =
        some (prevs.dropLast, pe.set_synopsis ⟨cs.dropWhile pyWs⟩) := by
      simp [as_synopsis, hg, hcap, headIs]
    unfold update_list
    rw [hs]
  · decide

/-- C8 (witness): attaching a synopsis to a preceding Slug pops and
re-emits it with the synopsis set and appends nothing else. -/
theorem synopsis_attachment_rule_witness :
    update_list ⟨["=A tense scene"]⟩
        [.slug (parse_emphasis "INT. HOUSE - DAY") none none] =
      [.slug (parse_emphasis "INT. HOUSE - DAY") none (some "A tense scene")] := by
  have h := synopsis_attachment_rule.1 ("A tense scene".data)
    [.slug (parse_emphasis "INT. HOUSE - DAY") none none]
    (.slug (parse_emphasis "INT. HOUSE - DAY") none none) (by decide) (by decide)
  have h2 : (⟨'=' :: "A tense scene".data⟩ : String) = "=A tense scene" := by decide
  rw [h2] at h
  exact h.trans (by decide)

/-- C9: only the empty string separates paragraphs; a whitespace-only line
is non-blank, so two text runs separated by a spaces-only line form a
single input paragraph (one Action whose middle line right-strips to
empty), whereas a truly blank line yields two separate paragraphs. -/
theorem blank_line_separator_semantics :
    (∀ s : String, _is_blank s = true ↔ s = "") ∧
    groupNonBlank ["first", "   ", "second"] [] = [["first", "   ", "second"]] ∧
    parse_body ["first", "   ", "second"] =
      [.action [parse_emphasis "first", parse_emphasis "",
        parse_emphasis "second"] false none] ∧
    parse_body ["first", "", "second"] =
      [.action [parse_emphasis "first"] false none,
       .action [parse_emphasis "second"] false none] := by
  refine ⟨?_, by decide, by decide, by decide⟩
  intro s
  simp [_is_blank]

/-- C10: a paragraph of at least two lines whose upper-case first line
carries the caret marker, classified while the previous output element is
not a Dialog, produces a plain Dialog whose character name is the first
line with the caret still included - the marker is only stripped on a
successful dual-dialogue merge. -/
theorem caret_kept_without_dialog_merge (c l2 : String) (ls : List String)
    (prevs : List Element) (t : String)
    (hup : pyIsUpper c = true) (hsp : endsWithStr c "  " = false)
    (hdual : dualMatch c = some t)
    (hprev : ∀ d, prevs.getLast? ≠ some (.dialog d)) :
    update_list ⟨c :: l2 :: ls⟩ prevs =
      prevs ++ [.dialog (mkDialog c (c :: l2 :: ls))] := by
  unfold update_list
  rw [as_synopsis_two, as_section_two, as_slug_two,
      as_centered_head_none c l2 ls (centeredMatch_caret c t hdual),
      as_dialog_no_prev_dialog c l2 ls prevs hup hsp hprev]

/-- C10 (witness): with a preceding Action, the paragraph BOB ^/hey stays
a plain Dialog whose character name keeps the caret. -/
theorem caret_kept_without_dialog_merge_witness :
    update_list ⟨["BOB ^", "hey"]⟩ [.action [parse_emphasis "x"] false none] =
      [.action [parse_emphasis "x"] false none,
       .dialog ⟨parse_emphasis "BOB ^", [parse_emphasis "hey"], none⟩] := by
  have h := caret_kept_without_dialog_merge "BOB ^" "hey" []
    [.action [parse_emphasis "x"] false none] "BOB" (by decide) (by decide) (by decide)
    (by
      intro d hd
      simp at hd)
  exact h.trans (by decide)

end Fountain
